import Mathlib

/-!
Shallow embedding of the foodgram backend core
(src/backend/recipes/models.py, src/backend/api/serializers.py,
src/backend/api/views.py): recipe composition validation, the
ingredient-aggregation shopping list, and the user/recipe relation
operations.

Strings are modelled as Lean `String`; the relational store's
`ORDER BY` on a text column is modelled as lexicographic comparison of
the codepoint sequences (the collation the store applies by default when
no case normalisation such as `Lower(...)` is requested in the query).
-/

namespace Foodgram

/-- Strict lexicographic order on codepoint sequences; the comparison a
text `ORDER BY` performs when the query applies no case normalisation. -/
def charListLt : List Char → List Char → Bool
  | [], [] => false
  | [], _ :: _ => true
  | _ :: _, [] => false
  | a :: as, b :: bs =>
    if a.toNat < b.toNat then true
    else if b.toNat < a.toNat then false
    else charListLt as bs

/-- Reflexive closure of `charListLt` on strings: `a ≤ b` iff `¬ (b < a)`. -/
def strLe (a b : String) : Bool := !(charListLt b.data a.data)

/-- ASCII lowering of one character (used only to state the spec's
"case-insensitive" ordering; the source query applies no lowering). -/
def asciiLower (c : Char) : Char :=
  if 65 ≤ c.toNat && c.toNat ≤ 90 then Char.ofNat (c.toNat + 32) else c

/-- Modelled from the spec: the case-insensitive name comparison the spec
prescribes for the shopping-list report ("Sort the merged groups by
ingredient name, ascending, case-insensitive"). -/
def ciStrLe (a b : String) : Bool :=
  strLe (String.mk (a.data.map asciiLower)) (String.mk (b.data.map asciiLower))

/-- Catalog row of `Ingredient` (models.py): `name` and
`measurement_unit` are free-form strings; `id` is the primary key. -/
structure Ingredient where
  id : Nat
  name : String
  measurement_unit : String
  deriving DecidableEq, Repr

/-- Stored `RecipeIngredient` row (models.py): a line tying a recipe id
to a resolved catalog ingredient with a positive amount. -/
structure RIRow where
  recipe : Nat
  ingredient : Ingredient
  amount : Nat
  deriving DecidableEq, Repr

/-- Grouping key used by `download_shopping_cart` (views.py):
`values('ingredient__name', 'ingredient__measurement_unit')`. -/
def lineKey (l : RIRow) : String × String :=
  (l.ingredient.name, l.ingredient.measurement_unit)

/-- Annotation `Sum('amount')` for one group: the sum of the amounts of
all lines whose (name, measurement_unit) pair equals `k`. -/
def totalFor (lines : List RIRow) (k : String × String) : Nat :=
  ((lines.filter (fun l => lineKey l == k)).map (fun l => l.amount)).sum

/-- Report ordering of `download_shopping_cart`:
`order_by('ingredient__name')` — ascending by the raw ingredient name
(this query applies no `Lower(...)`, unlike the ingredient catalog view). -/
def keyOrder (a b : String × String) : Prop := strLe a.1 b.1 = true

instance : DecidableRel keyOrder :=
  fun a b => inferInstanceAs (Decidable (strLe a.1 b.1 = true))

/-- Aggregation of `download_shopping_cart` (views.py lines 193–198):
group the cart's `RecipeIngredient` lines by (ingredient name, unit),
annotate each group with the summed amount, and order the groups by
ingredient name ascending. -/
def aggregateCart (lines : List RIRow) : List ((String × String) × Nat) :=
  (List.insertionSort keyOrder (lines.map lineKey).dedup).map
    (fun k => (k, totalFor lines k))

/-- Stored `Recipe` row (models.py) with its many-to-many tag set
(`tags.set(...)` replaces it wholesale, so it is kept inline). -/
structure StoredRecipe where
  id : Nat
  author : Nat
  name : String
  text : String
  image : String
  cooking_time : Nat
  tags : List Nat
  deriving DecidableEq, Repr

/-- Relational state: the four tables the claims touch. `favorites` and
`shoppingCarts` hold (user id, recipe id) pairs. -/
structure DB where
  recipes : List StoredRecipe
  recipeIngredients : List RIRow
  favorites : List (Nat × Nat)
  shoppingCarts : List (Nat × Nat)
  deriving DecidableEq, Repr

/-- Reverse accessor `recipe.recipe_ingredients.all()`: the ingredient
lines stored for recipe `rid`. -/
def linesOf (db : DB) (rid : Nat) : List RIRow :=
  db.recipeIngredients.filter (fun l => l.recipe == rid)

/-- Queryset `Recipe.objects.filter(in_shopping_carts__user=user)` of
`download_shopping_cart`. -/
def cartRecipes (db : DB) (user : Nat) : List StoredRecipe :=
  db.recipes.filter (fun r => db.shoppingCarts.contains (user, r.id))

/-- Queryset `RecipeIngredient.objects.filter(recipe__in=recipes)` of
`download_shopping_cart`. -/
def cartLines (db : DB) (user : Nat) : List RIRow :=
  db.recipeIngredients.filter
    (fun l => (cartRecipes db user).any (fun r => r.id == l.recipe))

/-- Parsed element of the `ingredients` payload
(`RecipeIngredientSerializer`): the `id` key is a `PrimaryKeyRelatedField`
resolved to a catalog `Ingredient` row, plus an integer amount. -/
structure IngredientEntry where
  ingredient : Ingredient
  amount : Nat
  deriving DecidableEq, Repr

/-- Validated data reaching `RecipeSerializer.validate`. `tags` holds the
resolved tag ids; `ingredients` is the parsed list keyed
`recipe_ingredients` through the field's `source`. `image` is `none` when
the field was absent from the request (then `data.get('image')` yields
`None`) and `some s` when a file with name `s` was submitted; Django file
objects are falsy exactly when the name is empty. -/
structure RecipePayload where
  tags : List Nat
  ingredients : List IngredientEntry
  image : Option String
  name : String
  text : String
  cooking_time : Nat
  deriving DecidableEq, Repr

/-- Python truthiness of `data.get('image')`: `None` and a file with an
empty name are falsy. -/
def imageTruthy : Option String → Bool
  | none => false
  | some s => !s.isEmpty

/-- Function `RecipeSerializer.validate` (serializers.py lines 231–260),
check for check in source order; each failing check raises at once, so
only the first violated check is reported. Python's
`len(ids) != len(set(ids))` duplicate test is rendered as comparing the
length of the deduplicated list with the length of the list. Note the
source raises the duplicate-ingredient error under the key `tags`. -/
def validateRecipe (data : RecipePayload) : Except (String × String) RecipePayload :=
  if data.tags.isEmpty then
    .error ("tags", "Поле tags не может быть пустым")
  else if data.tags.dedup.length != data.tags.length then
    .error ("tags", "Дублирование не применимо.")
  else if data.ingredients.isEmpty then
    .error ("recipe_ingredients", "Поле ingredients не может быть пустым")
  else if (data.ingredients.map (fun e => e.ingredient.id)).dedup.length
      != (data.ingredients.map (fun e => e.ingredient.id)).length then
    .error ("tags", "Дублирование не применимо.")
  else if !(imageTruthy data.image) then
    .error ("image", "Изображение нельзя оставить пустым")
  else
    .ok data

/-- Fields named by a validation outcome: a raised error names exactly
one field; success names none. -/
def reportedFields : Except (String × String) RecipePayload → List String
  | .error e => [e.1]
  | .ok _ => []

/-- Helper `RecipeSerializer._create_recipe_ingredients`: the
`RecipeIngredient` rows bulk-created for recipe `rid`. -/
def createRecipeIngredients (rid : Nat) (entries : List IngredientEntry) : List RIRow :=
  entries.map (fun e => { recipe := rid, ingredient := e.ingredient, amount := e.amount })

/-- Line replacement in `RecipeSerializer.update`:
`instance.recipe_ingredients.all().delete()` followed by the bulk create. -/
def replaceLines (rows : List RIRow) (rid : Nat) (entries : List IngredientEntry) : List RIRow :=
  rows.filter (fun l => l.recipe != rid) ++ createRecipeIngredients rid entries

/-- Creation pipeline (POST): the DRF field stage enforces
`image = Base64ImageField(required=True)` — an absent image is a field
error before `validate` runs; then `RecipeSerializer.validate`, then
`create` writes the recipe row, its tag set and its ingredient lines.
Returns the resulting state and `some (field, message)` on failure. -/
def runCreate (db : DB) (newId author : Nat) (p : RecipePayload) :
    DB × Option (String × String) :=
  match p.image with
  | none => (db, some ("image", "This field is required."))
  | some img =>
    match validateRecipe p with
    | .error e => (db, some e)
    | .ok _ =>
      let recipe : StoredRecipe :=
        { id := newId, author := author, name := p.name, text := p.text,
          image := img, cooking_time := p.cooking_time, tags := p.tags }
      ({ db with
          recipes := recipe :: db.recipes,
          recipeIngredients :=
            db.recipeIngredients ++ createRecipeIngredients newId p.ingredients },
        none)

/-- Update pipeline (PATCH, partial): absent fields are skipped at the
DRF field stage, so `validate` sees `data.get(...)` defaults; on success
`RecipeSerializer.update` writes the scalar fields, replaces the tag set
via `tags.set`, deletes all existing lines and bulk-creates the submitted
ones. On a validation error nothing is written. -/
def runUpdate (db : DB) (rid : Nat) (p : RecipePayload) :
    DB × Option (String × String) :=
  match validateRecipe p with
  | .error e => (db, some e)
  | .ok _ =>
    ({ db with
        recipes := db.recipes.map (fun r =>
          if r.id == rid then
            { r with name := p.name, text := p.text,
                     cooking_time := p.cooking_time,
                     image := p.image.getD r.image, tags := p.tags }
          else r),
        recipeIngredients := replaceLines db.recipeIngredients rid p.ingredients },
      none)

/-- Creation request as received over HTTP: the composition payload plus
whatever `author` value the client put in the body. The serializer
declares `author = UserSerializer(read_only=True)`, so the body's author
never enters validated data. -/
structure CreateRequest where
  payload : RecipePayload
  payloadAuthor : Option Nat
  deriving DecidableEq, Repr

/-- View entry `RecipeViewSet.perform_create` (views.py lines 76–78):
`serializer.save(author=self.request.user)` — the stored author is the
acting user; the read-only author field of the body is dropped. -/
def performCreate (db : DB) (newId actingUser : Nat) (req : CreateRequest) :
    DB × Option (String × String) :=
  runCreate db newId actingUser req.payload

/-- Outcome of `UserViewSet._create_subscription`. -/
inductive SubscribeResult where
  | selfError
  | duplicateError
  | created
  deriving DecidableEq, Repr

/-- Function `UserViewSet._create_subscription` (views.py lines 305–324)
over the subscription table of (user, subscribed_to) pairs: the
self-subscription guard runs first; only then `get_or_create` performs
the duplicate check-then-insert. -/
def createSubscription (subs : List (Nat × Nat)) (user author : Nat) :
    List (Nat × Nat) × SubscribeResult :=
  if user = author then (subs, .selfError)
  else if subs.contains (user, author) then (subs, .duplicateError)
  else ((user, author) :: subs, .created)

/-- Surrounding-whitespace stripping performed by Python's `int(str)`. -/
def stripChars (cs : List Char) : List Char :=
  ((cs.dropWhile Char.isWhitespace).reverse.dropWhile Char.isWhitespace).reverse

/-- Digit sequence to number. -/
def digitsToNat (cs : List Char) : Nat :=
  cs.foldl (fun a c => a * 10 + (c.toNat - 48)) 0

/-- Python `int(s)` on a decimal string: optional surrounding whitespace,
optional sign, then digits; `none` models the `ValueError` thrown on any
other shape. -/
def pyInt (s : String) : Option Int :=
  match stripChars s.data with
  | [] => none
  | c :: rest =>
    let digits : List Char :=
      if c = '-' || c = '+' then rest else c :: rest
    if digits.isEmpty then none
    else if digits.all Char.isDigit then
      if c = '-' then some (-(digitsToNat digits : Int))
      else some (digitsToNat digits : Int)
    else none

/-- Method `UserSubscriptionSerializer.get_recipes` (serializers.py lines
66–79). `param` is `request.GET.get("recipes_limit")` (`none` when
absent, when `int(None)` raises `TypeError`); a non-numeric value makes
`int` raise `ValueError`; a negative value makes the queryset slice
`recipes[:limit]` raise `ValueError` ("Negative indexing is not
supported"). All three exceptions are swallowed by the
`except (ValueError, TypeError): pass`, leaving the full recipe list. -/
def get_recipes (param : Option String) (recipes : List StoredRecipe) :
    List StoredRecipe :=
  match param with
  | none => recipes
  | some s =>
    match pyInt s with
    | none => recipes
    | some n => if n < 0 then recipes else recipes.take n.toNat

/-- Cascade of `on_delete=models.CASCADE` (models.py): deleting a recipe
row also deletes every `RecipeIngredient`, `Favorite` and `ShoppingCart`
row referencing it, in the same operation. -/
def deleteRecipe (db : DB) (rid : Nat) : DB :=
  { recipes := db.recipes.filter (fun r => r.id != rid),
    recipeIngredients := db.recipeIngredients.filter (fun l => l.recipe != rid),
    favorites := db.favorites.filter (fun f => f.2 != rid),
    shoppingCarts := db.shoppingCarts.filter (fun c => c.2 != rid) }

/-- Referential invariant: every line, favorite and cart row references
an existing recipe. -/
def refIntegrity (db : DB) : Prop :=
  (∀ l ∈ db.recipeIngredients, ∃ r ∈ db.recipes, r.id = l.recipe)
  ∧ (∀ f ∈ db.favorites, ∃ r ∈ db.recipes, r.id = f.2)
  ∧ (∀ c ∈ db.shoppingCarts, ∃ r ∈ db.recipes, r.id = c.2)

theorem charListLt_asymm : ∀ {a b : List Char},
    charListLt a b = true → charListLt b a = false := by
  intro a
  induction a with
  | nil =>
    intro b h
    cases b with
    | nil => simp [charListLt] at h
    | cons y ys => simp [charListLt]
  | cons x xs ih =>
    intro b h
    cases b with
    | nil => simp [charListLt] at h
    | cons y ys =>
      simp only [charListLt] at h ⊢
      rcases Nat.lt_trichotomy x.toNat y.toNat with hxy | hxy | hxy
      · have h1 : ¬ y.toNat < x.toNat := by omega
        simp [hxy, h1]
      · have h1 : ¬ x.toNat < y.toNat := by omega
        have h2 : ¬ y.toNat < x.toNat := by omega
        simp only [if_neg h1, if_neg h2] at h ⊢
        exact ih h
      · have h1 : ¬ x.toNat < y.toNat := by omega
        simp [h1, hxy] at h
  
theorem charListLt_nle_trans : ∀ (c b a : List Char),
    charListLt b a = false → charListLt c b = false → charListLt c a = false := by
  intro c
  induction c with
  | nil =>
    intro b a h1 h2
    cases b with
    | nil =>
      cases a with
      | nil => simp [charListLt]
      | cons x xs => simp [charListLt] at h1
    | cons y ys => simp [charListLt] at h2
  | cons z zs ih =>
    intro b a h1 h2
    cases a with
    | nil => simp [charListLt]
    | cons x xs =>
      cases b with
      | nil => simp [charListLt] at h1
      | cons y ys =>
        simp only [charListLt] at h1 h2 ⊢
        rcases Nat.lt_trichotomy y.toNat x.toNat with hyx | hyx | hyx
        · simp [hyx] at h1
        · rcases Nat.lt_trichotomy z.toNat y.toNat with hzy | hzy | hzy
          · simp [hzy] at h2
          · have a1 : ¬ z.toNat < x.toNat := by omega
            have a2 : ¬ x.toNat < z.toNat := by omega
            have b1 : ¬ x.toNat < y.toNat := by omega
            have b2 : ¬ y.toNat < z.toNat := by omega
            simp only [if_neg (by omega : ¬ y.toNat < x.toNat), if_neg b1] at h1
            simp only [if_neg (by omega : ¬ z.toNat < y.toNat), if_neg b2] at h2
            simp only [if_neg a1, if_neg a2]
            exact ih ys xs h1 h2
          · have a1 : ¬ z.toNat < x.toNat := by omega
            have a2 : x.toNat < z.toNat := by omega
            simp [a1, a2]
        · by_cases hzy : z.toNat < y.toNat
          · simp [hzy] at h2
          · have a1 : ¬ z.toNat < x.toNat := by omega
            have a2 : x.toNat < z.toNat := by omega
            simp [a1, a2]

instance : IsTotal (String × String) keyOrder := by
  refine ⟨fun a b => ?_⟩
  by_cases h : charListLt b.1.data a.1.data = true
  · right
    have := charListLt_asymm h
    simp [keyOrder, strLe, this]
  · left
    simp only [Bool.not_eq_true] at h
    simp [keyOrder, strLe, h]

instance : IsTrans (String × String) keyOrder := by
  refine ⟨fun a b c hab hbc => ?_⟩
  simp only [keyOrder, strLe, Bool.not_eq_true'] at hab hbc ⊢
  exact charListLt_nle_trans c.1.data b.1.data a.1.data hab hbc

theorem aggregateCart_keys (lines : List RIRow) :
    (aggregateCart lines).map Prod.fst
      = List.insertionSort keyOrder (lines.map lineKey).dedup := by
  simp only [aggregateCart, List.map_map]
  have : (Prod.fst ∘ fun k => (k, totalFor lines k)) = fun k : String × String => k := by
    funext k
    rfl
  rw [this, List.map_id']

theorem totalFor_perm {lines lines' : List RIRow} (h : lines.Perm lines')
    (k : String × String) : totalFor lines k = totalFor lines' k := by
  unfold totalFor
  exact ((h.filter _).map _).sum_eq


/-- Catalog fixtures for the concrete scenarios: two distinct catalog
rows sharing the (name, unit) pair ("Salt", "g"), and two cart lines
carrying amounts 10 and 5. -/
def saltG : Ingredient := { id := 1, name := "Salt", measurement_unit := "g" }

def saltG2 : Ingredient := { id := 2, name := "Salt", measurement_unit := "g" }

def saltLineA : RIRow := { recipe := 100, ingredient := saltG, amount := 10 }

def saltLineB : RIRow := { recipe := 101, ingredient := saltG2, amount := 5 }

theorem aggregateCart_salt_scenario :
    aggregateCart [saltLineA, saltLineB] = [(("Salt", "g"), 15)] := by decide

/-- C1: for every cart contents, the shopping-list aggregation has
exactly one entry per distinct (ingredient name, measurement unit) pair
occurring in the cart lines — two catalog rows sharing name and unit are
merged — the entry's total is the sum of the amounts of all those lines,
and the totals are unchanged under any reordering of the cart's lines
(hence of the cart's recipes). -/
theorem c1_shopping_list_aggregation (lines lines' : List RIRow)
    (hperm : lines.Perm lines') :
    ((aggregateCart lines).map Prod.fst).Nodup
    ∧ (∀ k, k ∈ (aggregateCart lines).map Prod.fst ↔ k ∈ lines.map lineKey)
    ∧ (∀ e ∈ aggregateCart lines, e.2 = totalFor lines e.1)
    ∧ (∀ k, totalFor lines k = totalFor lines' k) := by
  refine ⟨?_, ?_, ?_, fun k => totalFor_perm hperm k⟩
  · rw [aggregateCart_keys]
    exact ((List.perm_insertionSort keyOrder _).nodup_iff).mpr (List.nodup_dedup _)
  · intro k
    rw [aggregateCart_keys]
    exact ((List.perm_insertionSort keyOrder _).mem_iff).trans (List.mem_dedup)
  · intro e he
    unfold aggregateCart at he
    obtain ⟨k, hk, rfl⟩ := List.mem_map.mp he
    rfl

/-- Witness for C1 at the spec scenario: cart lines Salt/g amount 10 and
Salt/g amount 5 (distinct catalog rows), in both orders. -/
theorem c1_shopping_list_aggregation_witness :
    ((aggregateCart [saltLineA, saltLineB]).map Prod.fst).Nodup
    ∧ (∀ k, k ∈ (aggregateCart [saltLineA, saltLineB]).map Prod.fst
        ↔ k ∈ [saltLineA, saltLineB].map lineKey)
    ∧ (∀ e ∈ aggregateCart [saltLineA, saltLineB],
        e.2 = totalFor [saltLineA, saltLineB] e.1)
    ∧ (∀ k, totalFor [saltLineA, saltLineB] k = totalFor [saltLineB, saltLineA] k) :=
  c1_shopping_list_aggregation [saltLineA, saltLineB] [saltLineB, saltLineA]
    (List.Perm.swap saltLineB saltLineA [])


theorem nodup_of_dedup_length {α : Type} [DecidableEq α] {l : List α}
    (h : l.dedup.length = l.length) : l.Nodup := by
  have heq : l.dedup = l := (List.dedup_sublist l).eq_of_length h
  rw [← heq]
  exact List.nodup_dedup l

theorem validateRecipe_ok_inv {p q : RecipePayload}
    (h : validateRecipe p = .ok q) :
    p.tags ≠ [] ∧ p.ingredients ≠ []
    ∧ (p.ingredients.map (fun e => e.ingredient.id)).Nodup
    ∧ imageTruthy p.image = true ∧ q = p := by
  unfold validateRecipe at h
  split at h
  · exact Except.noConfusion h
  · split at h
    · exact Except.noConfusion h
    · split at h
      · exact Except.noConfusion h
      · split at h
        · exact Except.noConfusion h
        · split at h
          · exact Except.noConfusion h
          · rename_i h1 h2 h3 h4 h5
            have hq : q = p := by
              cases h
              rfl
            refine ⟨by simpa using h1, by simpa using h3, ?_, by simpa using h5, hq⟩
            apply nodup_of_dedup_length
            simpa using h4

theorem filter_createRecipeIngredients (rid : Nat)
    (entries : List IngredientEntry) :
    (createRecipeIngredients rid entries).filter (fun l => l.recipe == rid)
      = createRecipeIngredients rid entries := by
  apply List.filter_eq_self.mpr
  intro a ha
  obtain ⟨e, _, rfl⟩ := List.mem_map.mp ha
  simp

theorem filter_replaceLines (rows : List RIRow) (rid : Nat)
    (entries : List IngredientEntry) :
    (replaceLines rows rid entries).filter (fun l => l.recipe == rid)
      = createRecipeIngredients rid entries := by
  unfold replaceLines
  rw [List.filter_append]
  have h1 : (rows.filter (fun l => l.recipe != rid)).filter
      (fun l => l.recipe == rid) = [] := by
    apply List.filter_eq_nil_iff.mpr
    intro a ha
    have := (List.mem_filter.mp ha).2
    simp at this ⊢
    exact this
  rw [h1, filter_createRecipeIngredients, List.nil_append]

theorem ids_createRecipeIngredients (rid : Nat)
    (entries : List IngredientEntry) :
    (createRecipeIngredients rid entries).map (fun l => l.ingredient.id)
      = entries.map (fun e => e.ingredient.id) := by
  unfold createRecipeIngredients
  rw [List.map_map]
  rfl

/-- C2: after every accepted create or update the stored recipe has a
non-empty tag set and a non-empty line set whose referenced ingredients
are pairwise distinct; an accepted update replaces the stored line set
with exactly the submitted lines; a rejected submission leaves the state
untouched. `hfresh` says the created recipe's id is not yet used by any
stored line. -/
theorem c2_composition_invariants (db : DB) (rid newId author : Nat)
    (p : RecipePayload) (hfresh : linesOf db newId = []) :
    (∀ db', runUpdate db rid p = (db', none) →
        linesOf db' rid = createRecipeIngredients rid p.ingredients
        ∧ p.ingredients ≠ []
        ∧ ((linesOf db' rid).map (fun l => l.ingredient.id)).Nodup
        ∧ ∀ r ∈ db'.recipes, r.id = rid → (r.tags = p.tags ∧ r.tags ≠ []))
    ∧ (∀ db' e, runUpdate db rid p = (db', some e) → db' = db)
    ∧ (∀ db', runCreate db newId author p = (db', none) →
        linesOf db' newId = createRecipeIngredients newId p.ingredients
        ∧ p.ingredients ≠ []
        ∧ ((linesOf db' newId).map (fun l => l.ingredient.id)).Nodup
        ∧ ∃ r ∈ db'.recipes, r.id = newId ∧ r.tags = p.tags ∧ r.tags ≠ [])
    ∧ (∀ db' e, runCreate db newId author p = (db', some e) → db' = db) := by
  cases hval : validateRecipe p with
  | error err =>
    refine ⟨?_, ?_, ?_, ?_⟩
    · intro db' h
      simp [runUpdate, hval] at h
    · intro db' e h
      simp [runUpdate, hval] at h
      exact h.1.symm
    · intro db' h
      cases himg : p.image with
      | none => simp [runCreate, himg] at h
      | some img => simp [runCreate, himg, hval] at h
    · intro db' e h
      cases himg : p.image with
      | none =>
        simp [runCreate, himg] at h
        exact h.1.symm
      | some img =>
        simp [runCreate, himg, hval] at h
        exact h.1.symm
  | ok q =>
    obtain ⟨htags, hing, hnodup, himg, rfl⟩ := validateRecipe_ok_inv hval
    obtain ⟨img, himgeq⟩ : ∃ img, q.image = some img := by
      cases hi : q.image with
      | none => rw [hi] at himg; simp [imageTruthy] at himg
      | some i => exact ⟨i, rfl⟩
    refine ⟨?_, ?_, ?_, ?_⟩
    · intro db' h
      simp only [runUpdate, hval, Prod.mk.injEq] at h
      obtain ⟨hdb, -⟩ := h
      subst hdb
      refine ⟨?_, hing, ?_, ?_⟩
      · simp only [linesOf]
        exact filter_replaceLines db.recipeIngredients rid q.ingredients
      · simp only [linesOf]
        rw [filter_replaceLines, ids_createRecipeIngredients]
        exact hnodup
      · intro r hr hrid
        obtain ⟨r0, hr0, rfl⟩ := List.mem_map.mp hr
        by_cases hid : r0.id == rid
        · refine ⟨by simp [hid], ?_⟩
          simpa [hid] using htags
        · simp only [hid, if_false] at hrid ⊢
          simp at hid
          exact absurd hrid hid
    · intro db' e h
      simp [runUpdate, hval] at h
    · intro db' h
      simp only [runCreate, himgeq, hval, Prod.mk.injEq] at h
      obtain ⟨hdb, -⟩ := h
      subst hdb
      refine ⟨?_, hing, ?_, ?_⟩
      · simp only [linesOf, List.filter_append]
        have : db.recipeIngredients.filter (fun l => l.recipe == newId) = [] :=
          hfresh
        rw [this, filter_createRecipeIngredients, List.nil_append]
      · simp only [linesOf, List.filter_append]
        rw [show db.recipeIngredients.filter (fun l => l.recipe == newId) = []
              from hfresh,
            filter_createRecipeIngredients, List.nil_append,
            ids_createRecipeIngredients]
        exact hnodup
      · exact ⟨_, List.mem_cons_self _ _, rfl, rfl, htags⟩
    · intro db' e h
      simp [runCreate, himgeq, hval] at h

/-- Stored recipe fixture used by the concrete scenarios. -/
def recipe0 : StoredRecipe :=
  { id := 0, author := 3, name := "soup", text := "mix", image := "old.png",
    cooking_time := 30, tags := [1] }

/-- Concrete state: one stored recipe with one ingredient line, one
favorite entry and one cart entry, all for recipe 0 and user 3. -/
def db0 : DB :=
  { recipes := [recipe0],
    recipeIngredients := [{ recipe := 0, ingredient := saltG, amount := 4 }],
    favorites := [(3, 0)],
    shoppingCarts := [(3, 0)] }

/-- Payload that passes every check of `RecipeSerializer.validate`. -/
def validPayload : RecipePayload :=
  { tags := [1, 2], ingredients := [{ ingredient := saltG, amount := 10 }],
    image := some "new.png", name := "n", text := "t", cooking_time := 5 }

/-- Witness for C2 at the concrete state `db0`, updating recipe 0 and
creating recipe 1 with `validPayload`. -/
theorem c2_composition_invariants_witness :
    (∀ db', runUpdate db0 0 validPayload = (db', none) →
        linesOf db' 0 = createRecipeIngredients 0 validPayload.ingredients
        ∧ validPayload.ingredients ≠ []
        ∧ ((linesOf db' 0).map (fun l => l.ingredient.id)).Nodup
        ∧ ∀ r ∈ db'.recipes, r.id = 0 →
            (r.tags = validPayload.tags ∧ r.tags ≠ []))
    ∧ (∀ db' e, runUpdate db0 0 validPayload = (db', some e) → db' = db0)
    ∧ (∀ db', runCreate db0 1 3 validPayload = (db', none) →
        linesOf db' 1 = createRecipeIngredients 1 validPayload.ingredients
        ∧ validPayload.ingredients ≠ []
        ∧ ((linesOf db' 1).map (fun l => l.ingredient.id)).Nodup
        ∧ ∃ r ∈ db'.recipes, r.id = 1 ∧ r.tags = validPayload.tags ∧ r.tags ≠ [])
    ∧ (∀ db' e, runCreate db0 1 3 validPayload = (db', some e) → db' = db0) :=
  c2_composition_invariants db0 0 1 3 validPayload (by decide)


/-- Payload whose two ingredient lines reference the same catalog
ingredient (id 1) and which passes the tag checks. -/
def dupIngredientPayload : RecipePayload :=
  { tags := [1],
    ingredients := [{ ingredient := saltG, amount := 3 },
                    { ingredient := saltG, amount := 5 }],
    image := some "img.png", name := "x", text := "y", cooking_time := 10 }

/-- C3: a submission whose ingredient lines reference the same
ingredient twice is rejected before any write, but the raised error is
keyed "tags", not "ingredients": the source attributes the
duplicate-ingredient failure to the tags field (serializers.py lines
251–254). -/
theorem c3_duplicate_ingredient_error_field :
    validateRecipe dupIngredientPayload
      = .error ("tags", "Дублирование не применимо.")
    ∧ runUpdate db0 0 dupIngredientPayload
      = (db0, some ("tags", "Дублирование не применимо."))
    ∧ ("tags" : String) ≠ "ingredients" :=
  ⟨rfl, rfl, by decide⟩

/-- Payload violating two independent checks at once: an empty tag list
and an empty ingredient-line list. -/
def bothEmptyPayload : RecipePayload :=
  { tags := [], ingredients := [], image := some "img.png",
    name := "x", text := "y", cooking_time := 10 }

/-- C4 counterexample: on a payload with both an empty tag list and an
empty ingredient list, the validation result carries only the tags
error; the violated ingredients check is not reported alongside it. -/
theorem c4_no_error_collection_counterexample :
    validateRecipe bothEmptyPayload
      = .error ("tags", "Поле tags не может быть пустым")
    ∧ reportedFields (validateRecipe bothEmptyPayload) = ["tags"]
    ∧ "recipe_ingredients" ∉ reportedFields (validateRecipe bothEmptyPayload)
    ∧ "ingredients" ∉ reportedFields (validateRecipe bothEmptyPayload) :=
  ⟨rfl, rfl, by decide, by decide⟩

/-- C4 amended: validation short-circuits: whenever the tag list is
empty, the tags error is the sole reported error, whatever other checks
the submission also violates. -/
theorem c4_validation_short_circuits (p : RecipePayload) (h : p.tags = []) :
    validateRecipe p = .error ("tags", "Поле tags не может быть пустым") := by
  unfold validateRecipe
  rw [if_pos (by simp [h])]

/-- Witness for C4 amended at `bothEmptyPayload`. -/
theorem c4_validation_short_circuits_witness :
    bothEmptyPayload.tags = []
    ∧ validateRecipe bothEmptyPayload
        = .error ("tags", "Поле tags не может быть пустым") :=
  ⟨rfl, c4_validation_short_circuits bothEmptyPayload rfl⟩

theorem validateRecipe_image_error {p : RecipePayload}
    (htags : p.tags ≠ []) (htnd : p.tags.Nodup)
    (hing : p.ingredients ≠ [])
    (hind : (p.ingredients.map (fun e => e.ingredient.id)).Nodup)
    (himg : imageTruthy p.image = false) :
    validateRecipe p = .error ("image", "Изображение нельзя оставить пустым") := by
  have h1 : p.tags.isEmpty = false := by
    cases ht : p.tags with
    | nil => exact absurd ht htags
    | cons a as => rfl
  have h2 : (p.tags.dedup.length != p.tags.length) = false := by
    rw [List.dedup_eq_self.mpr htnd]
    simp
  have h3 : p.ingredients.isEmpty = false := by
    cases hi : p.ingredients with
    | nil => exact absurd hi hing
    | cons a as => rfl
  have h4 : ((p.ingredients.map (fun e => e.ingredient.id)).dedup.length
      != (p.ingredients.map (fun e => e.ingredient.id)).length) = false := by
    rw [List.dedup_eq_self.mpr hind]
    simp
  unfold validateRecipe
  rw [if_neg (by simp [h1]), if_neg (by simp [List.dedup_eq_self.mpr htnd]),
      if_neg (by simp [h3]),
      if_neg (by simp [List.dedup_eq_self.mpr hind]),
      if_pos (by simp [himg])]

/-- Update payload with valid tags and ingredients whose image field is
absent from the request. -/
def absentImagePayload : RecipePayload :=
  { tags := [1], ingredients := [{ ingredient := saltG, amount := 2 }],
    image := none, name := "x", text := "y", cooking_time := 10 }

/-- C5 counterexample: an update whose request omits the image field is
rejected with an image-keyed error and changes nothing — it does not
succeed keeping the stored image, as the claim asserts. -/
theorem c5_absent_image_update_counterexample :
    runUpdate db0 0 absentImagePayload
      = (db0, some ("image", "Изображение нельзя оставить пустым"))
    ∧ (runUpdate db0 0 absentImagePayload).2 ≠ none :=
  ⟨rfl, by decide⟩

/-- C5 amended: an image is mandatory on creation (its absence is a
required-field error); on update a present-but-empty image is rejected;
and an update whose request omits the image entirely is rejected as
well, with an image-keyed error, leaving the state unchanged. -/
theorem c5_image_rules (db : DB) (rid newId author : Nat) (p : RecipePayload)
    (htags : p.tags ≠ []) (htnd : p.tags.Nodup)
    (hing : p.ingredients ≠ [])
    (hind : (p.ingredients.map (fun e => e.ingredient.id)).Nodup)
    (himg : imageTruthy p.image = false) :
    runUpdate db rid p
      = (db, some ("image", "Изображение нельзя оставить пустым"))
    ∧ (p.image = none →
        runCreate db newId author p
          = (db, some ("image", "This field is required.")))
    ∧ (∀ s, p.image = some s →
        runCreate db newId author p
          = (db, some ("image", "Изображение нельзя оставить пустым"))) := by
  have hval := validateRecipe_image_error htags htnd hing hind himg
  refine ⟨?_, ?_, ?_⟩
  · simp [runUpdate, hval]
  · intro habs
    simp [runCreate, habs]
  · intro s hs
    simp [runCreate, hs, hval]

/-- Witness for C5 amended at `absentImagePayload` over the state `db0`. -/
theorem c5_image_rules_witness :
    runUpdate db0 0 absentImagePayload
      = (db0, some ("image", "Изображение нельзя оставить пустым"))
    ∧ (absentImagePayload.image = none →
        runCreate db0 1 3 absentImagePayload
          = (db0, some ("image", "This field is required.")))
    ∧ (∀ s, absentImagePayload.image = some s →
        runCreate db0 1 3 absentImagePayload
          = (db0, some ("image", "Изображение нельзя оставить пустым"))) :=
  c5_image_rules db0 0 1 3 absentImagePayload (by decide) (by decide)
    (by decide) (by decide) (by decide)


/-- Cart line over a lowercase-named catalog row "apple". -/
def appleRow : RIRow :=
  { recipe := 100,
    ingredient := { id := 3, name := "apple", measurement_unit := "g" },
    amount := 1 }

/-- Cart line over a capitalised catalog row "Banana". -/
def bananaRow : RIRow :=
  { recipe := 100,
    ingredient := { id := 4, name := "Banana", measurement_unit := "g" },
    amount := 2 }

/-- C6 counterexample: with catalog names "apple" and "Banana" the report
lists "Banana" before "apple", so the merged groups are not in
case-insensitive ascending name order (case-insensitively "apple" sorts
before "Banana"). -/
theorem c6_case_insensitive_sort_counterexample :
    (aggregateCart [appleRow, bananaRow]).map (fun e => e.1.1)
      = ["Banana", "apple"]
    ∧ ¬ ((aggregateCart [appleRow, bananaRow]).Pairwise
          (fun a b => ciStrLe a.1.1 b.1.1 = true))
    ∧ ciStrLe "apple" "Banana" = true
    ∧ ciStrLe "Banana" "apple" = false :=
  ⟨by decide, by decide, by decide, by decide⟩

/-- C6 amended: the merged groups are listed sorted by raw ingredient
name, ascending in codepoint (case-sensitive) order; the query applies no
case normalisation. -/
theorem c6_sorted_by_name (lines : List RIRow) :
    (aggregateCart lines).Pairwise (fun a b => strLe a.1.1 b.1.1 = true) := by
  unfold aggregateCart
  refine List.Pairwise.map _ ?_ (List.sorted_insertionSort keyOrder _)
  intro a b hab
  exact hab

/-- C7: subscribing to oneself always yields the self-subscription error
and leaves the table unchanged, whatever the table holds — in particular
the duplicate branch is never taken, even when the pair is already
present. -/
theorem c7_self_subscription_guard (subs : List (Nat × Nat)) (u : Nat) :
    createSubscription subs u u = (subs, .selfError)
    ∧ ∀ subs', createSubscription subs u u ≠ (subs', .duplicateError) := by
  constructor
  · simp [createSubscription]
  · intro subs' h
    simp [createSubscription] at h

/-- C8 counterexample: with one stored recipe, a recipes limit of "-1"
returns the full recipe list, not the empty list the claim asserts: the
negative queryset slice raises an error that the source swallows. -/
theorem c8_negative_limit_counterexample :
    get_recipes (some "-1") [recipe0] = [recipe0]
    ∧ get_recipes (some "-1") [recipe0] ≠ [] :=
  ⟨by decide, by decide⟩

/-- C8 amended: a limit of "0" yields the empty embedded list; an absent
limit, a non-numeric limit, and a negative limit all yield the followee's
full unbounded recipe list. -/
theorem c8_recipes_limit (recipes : List StoredRecipe) (s t : String)
    (n : Int) (hs : pyInt s = some n) (hneg : n < 0) (ht : pyInt t = none) :
    get_recipes (some "0") recipes = []
    ∧ get_recipes none recipes = recipes
    ∧ get_recipes (some t) recipes = recipes
    ∧ get_recipes (some s) recipes = recipes := by
  have h0 : pyInt "0" = some 0 := rfl
  refine ⟨?_, rfl, ?_, ?_⟩
  · simp [get_recipes, h0]
  · simp [get_recipes, ht]
  · simp [get_recipes, hs, hneg]

/-- Witness for C8 amended with limits "-1" (negative) and "abc"
(non-numeric) over a one-recipe list. -/
theorem c8_recipes_limit_witness :
    pyInt "-1" = some (-1) ∧ (-1 : Int) < 0 ∧ pyInt "abc" = none
    ∧ (get_recipes (some "0") [recipe0] = []
       ∧ get_recipes none [recipe0] = [recipe0]
       ∧ get_recipes (some "abc") [recipe0] = [recipe0]
       ∧ get_recipes (some "-1") [recipe0] = [recipe0]) :=
  ⟨by decide, by decide, by decide,
   c8_recipes_limit [recipe0] "-1" "abc" (-1) (by decide) (by decide) (by decide)⟩


/-- C9: the stored author of a created recipe is the acting request
user, and the author value in the request body has no effect: two
creation requests differing only in the body's author field produce the
same result. -/
theorem c9_author_is_request_user (db : DB) (newId actingUser : Nat)
    (p : RecipePayload) (a b : Option Nat) (db' : DB)
    (hok : performCreate db newId actingUser
      { payload := p, payloadAuthor := a } = (db', none)) :
    performCreate db newId actingUser { payload := p, payloadAuthor := a }
      = performCreate db newId actingUser { payload := p, payloadAuthor := b }
    ∧ ∃ r, db'.recipes = r :: db.recipes
        ∧ r.author = actingUser ∧ r.id = newId := by
  refine ⟨rfl, ?_⟩
  unfold performCreate runCreate at hok
  cases himg : p.image with
  | none =>
    rw [himg] at hok
    simp at hok
  | some img =>
    rw [himg] at hok
    cases hval : validateRecipe p with
    | error e =>
      rw [hval] at hok
      simp at hok
    | ok q =>
      rw [hval] at hok
      simp only [Prod.mk.injEq] at hok
      obtain ⟨hdb, -⟩ := hok
      subst hdb
      exact ⟨_, rfl, rfl, rfl⟩

/-- State produced by creating recipe 1 from `validPayload` for acting
user 7 on top of `db0`. -/
def db0AfterCreate : DB :=
  { recipes :=
      { id := 1, author := 7, name := "n", text := "t", image := "new.png",
        cooking_time := 5, tags := [1, 2] } :: db0.recipes,
    recipeIngredients :=
      db0.recipeIngredients ++ createRecipeIngredients 1 validPayload.ingredients,
    favorites := db0.favorites,
    shoppingCarts := db0.shoppingCarts }

/-- Witness for C9: two concrete creation requests for acting user 7
whose bodies carry author 42 and author 9 respectively. -/
theorem c9_author_is_request_user_witness :
    performCreate db0 1 7 { payload := validPayload, payloadAuthor := some 42 }
      = performCreate db0 1 7 { payload := validPayload, payloadAuthor := some 9 }
    ∧ ∃ r, db0AfterCreate.recipes = r :: db0.recipes
        ∧ r.author = 7 ∧ r.id = 1 :=
  c9_author_is_request_user db0 1 7 validPayload (some 42) (some 9)
    db0AfterCreate (by decide)

/-- C10: deleting a recipe removes its ingredient lines, favorite
entries and cart entries in the same operation; referential integrity is
preserved, and no shopping-list query run afterwards can see a line of
the deleted recipe, for any user. -/
theorem c10_delete_cascade (db : DB) (rid : Nat) (h : refIntegrity db) :
    refIntegrity (deleteRecipe db rid)
    ∧ (∀ l ∈ (deleteRecipe db rid).recipeIngredients, l.recipe ≠ rid)
    ∧ (∀ f ∈ (deleteRecipe db rid).favorites, f.2 ≠ rid)
    ∧ (∀ c ∈ (deleteRecipe db rid).shoppingCarts, c.2 ≠ rid)
    ∧ (∀ u, ∀ l ∈ cartLines (deleteRecipe db rid) u, l.recipe ≠ rid) := by
  obtain ⟨hl, hf, hc⟩ := h
  have gone : ∀ {l : RIRow},
      l ∈ (deleteRecipe db rid).recipeIngredients → l.recipe ≠ rid := by
    intro l hm
    have := (List.mem_filter.mp hm).2
    simpa using this
  refine ⟨⟨?_, ?_, ?_⟩, fun l hm => gone hm, ?_, ?_, ?_⟩
  · intro l hm
    obtain ⟨hmem, hne⟩ := List.mem_filter.mp hm
    obtain ⟨r, hr, hid⟩ := hl l hmem
    refine ⟨r, List.mem_filter.mpr ⟨hr, ?_⟩, hid⟩
    simp only [bne_iff_ne, ne_eq, hid]
    simpa using hne
  · intro f hm
    obtain ⟨hmem, hne⟩ := List.mem_filter.mp hm
    obtain ⟨r, hr, hid⟩ := hf f hmem
    refine ⟨r, List.mem_filter.mpr ⟨hr, ?_⟩, hid⟩
    simp only [bne_iff_ne, ne_eq, hid]
    simpa using hne
  · intro c hm
    obtain ⟨hmem, hne⟩ := List.mem_filter.mp hm
    obtain ⟨r, hr, hid⟩ := hc c hmem
    refine ⟨r, List.mem_filter.mpr ⟨hr, ?_⟩, hid⟩
    simp only [bne_iff_ne, ne_eq, hid]
    simpa using hne
  · intro f hm
    have := (List.mem_filter.mp hm).2
    simpa using this
  · intro c hm
    have := (List.mem_filter.mp hm).2
    simpa using this
  · intro u l hm
    exact gone (List.mem_filter.mp hm).1

/-- Witness for C10: cascade deletion of recipe 0 from the concrete
state `db0`, whose line, favorite and cart rows all reference recipe 0. -/
theorem c10_delete_cascade_witness :
    refIntegrity (deleteRecipe db0 0)
    ∧ (∀ l ∈ (deleteRecipe db0 0).recipeIngredients, l.recipe ≠ 0)
    ∧ (∀ f ∈ (deleteRecipe db0 0).favorites, f.2 ≠ 0)
    ∧ (∀ c ∈ (deleteRecipe db0 0).shoppingCarts, c.2 ≠ 0)
    ∧ (∀ u, ∀ l ∈ cartLines (deleteRecipe db0 0) u, l.recipe ≠ 0) :=
  c10_delete_cascade db0 0
    ⟨by decide, by decide, by decide⟩


end Foodgram
